import Mathlib

/-!
HTTP-to-bus gateway: subject translation, translation endpoint, service coordinator.

A shallow embedding of `cmd/gateway-http/main.go` and `pkg/service/service.go`.

Conventions of the embedding.

* A Go `string` is a sequence of bytes.  A byte `b` is represented by the character with
  code `b`, so every Go string is a `List Char`, the ASCII literals of the source denote
  themselves, and `s[1:]` drops the first element.
* A Go `(T, error)` result is a pair whose second component is `none` for a `nil` error.
* A run-time panic (slice bounds, nil dereference) is the outer `none` of an `Option`.
* Calls into the ports and the libraries are recorded, in order, in a list of effects.
-/

set_option autoImplicit false

namespace Gateway

/-- The Go `string` type: a byte sequence, one `Char` per byte. -/
abbrev GoString := List Char

/-! ## Standard library pieces used by the source -/

/-- The constant `http.MethodGet`. -/
def MethodGet : GoString := "GET".toList
/-- The constant `http.MethodPost`. -/
def MethodPost : GoString := "POST".toList
/-- The constant `http.MethodPut`. -/
def MethodPut : GoString := "PUT".toList
/-- The constant `http.MethodDelete`. -/
def MethodDelete : GoString := "DELETE".toList

/-- The call `strings.ReplaceAll(s, old, new)` for one-byte `old` and `new`. -/
def stringsReplaceAll (s : GoString) (old new : Char) : GoString :=
  s.map (fun c => if c = old then new else c)

/-- The call `strings.Count(s, sep)` for a one-byte `sep`. -/
def stringsCount (s : GoString) (sep : Char) : Nat :=
  s.count sep

/-- The call `strings.Split(s, sep)` for a one-byte `sep`: the pieces of `s` between the
occurrences of `sep`; a string without `sep` (the empty one included) gives one piece. -/
def stringsSplit : GoString → Char → List GoString
  | [], _ => [[]]
  | c :: cs, sep =>
    if c = sep then [] :: stringsSplit cs sep
    else
      match stringsSplit cs sep with
      | [] => [[c]]
      | piece :: pieces => (c :: piece) :: pieces

/-- A Go `map[string]string`, as the list of its entries (each key at most once when built
with `GoMap.set`; a map literal lists distinct keys). -/
abbrev GoMap := List (GoString × GoString)

/-- The index expression `m[k]` used as a value: the zero value `""` for a missing key. -/
def GoMap.index (m : GoMap) (k : GoString) : GoString :=
  (m.lookup k).getD []

/-- The two-valued lookup `v, ok := m[k]`. -/
def GoMap.get? (m : GoMap) (k : GoString) : Option GoString :=
  m.lookup k

/-- The assignment `m[k] = v`: the entry of `k`, if any, is replaced. -/
def GoMap.set (m : GoMap) (k v : GoString) : GoMap :=
  (k, v) :: m.filter (fun e => e.1 != k)

/-! ## Errors -/

/-- Modelled from the spec: the error values `errs.InvalidEndpoint`, `errs.InvalidService`
(package `pkg/errs`) and `ErrNoBrokerConfigured`, `ErrNoGatewayConfigured` (package
`pkg/service`, declared outside `service.go`) are named constants whose declarations are not
among the sources; `other` stands for every error value produced by a library or a port. -/
inductive GoError where
  | InvalidEndpoint
  | InvalidService
  | ErrNoBrokerConfigured
  | ErrNoGatewayConfigured
  | other (detail : GoString)
  deriving DecidableEq, Repr

/-! ## `cmd/gateway-http/main.go`: the subject translator -/

/-- The package variable `mapMethod`. -/
def mapMethod : GoMap :=
  [(MethodGet, "read".toList), (MethodPut, "update".toList), (MethodDelete, "delete".toList)]

/-- The package variable `mapListMethod`. -/
def mapListMethod : GoMap :=
  [(MethodGet, "find".toList), (MethodPost, "create".toList)]

/-- The call `fmt.Sprintf("%s.%s", a, b)`. -/
def sprintfDot (a b : GoString) : GoString :=
  a ++ '.' :: b

/-- The function `pathToSubject`.  The slice expression `path[1:]` panics on the empty
string (outer `none`). -/
def pathToSubject (method path : GoString) : Option (GoString × Option GoError) :=
  match path with
  | [] => none
  | _ :: rest =>
    let versionedResourceSubject := stringsReplaceAll rest '/' '.'
    if stringsCount versionedResourceSubject '.' % 2 != 0 then
      if method = MethodPut || method = MethodDelete then
        some ([], some GoError.InvalidEndpoint)
      else
        some (sprintfDot versionedResourceSubject (mapListMethod.index method), none)
    else if method = MethodPost then
      some ([], some GoError.InvalidEndpoint)
    else
      some (mapMethod.index method, none)

/-- The token sequence of a path as the specification words it: the path without its first
character, every `/` replaced by `.`. -/
def tokenSequence (path : GoString) : GoString :=
  (path.drop 1).map (fun c => if c = '/' then '.' else c)

/-- The action tokens a subject may end with. -/
def actionTokens : List GoString :=
  ["read".toList, "update".toList, "delete".toList, "find".toList, "create".toList]

/-- The subject ends with one of the action tokens. -/
def endsWithAction (subject : GoString) : Bool :=
  actionTokens.any (fun action => action.isSuffixOf subject)

/-! ## `cmd/gateway-http/main.go`: the `/v1` translation endpoint -/

/-- A decoded request body, the `interface{}` value that `Ctx.BodyParser` fills; `none` is
the nil interface of a request without body. -/
abbrev Body := Option GoString

/-- The fields of the cloud event that the handler sets. -/
structure Event where
  id : GoString
  source : GoString
  type : GoString
  dataContentType : GoString
  data : Body
  deriving DecidableEq, Repr

/-- Modelled from the spec: the reply type of `Broker.Request` is declared outside the
sources; the handler reads its field `Data`, a pointer to the payload bytes (`none` for
nil). -/
structure Message where
  Data : Option GoString
  deriving DecidableEq, Repr

/-- What the handler reads from and is answered by the request context `r.Ctx`. -/
structure Request where
  /-- The value of `Ctx.Method()`. -/
  method : GoString
  /-- The value of `Ctx.Path()`. -/
  path : GoString
  /-- The outcome of `Ctx.BodyParser(&body)`: an error, or the decoded body. -/
  bodyParser : Except GoError Body
  /-- The error result of `Ctx.Send(data)`. -/
  send : GoString → Option GoError

/-- The libraries and the broker port the handler calls. -/
structure World where
  /-- The value of `uuid.NewString()` for this request. -/
  newString : GoString
  /-- The call `json.Marshal(event)`. -/
  marshal : Event → GoString × Option GoError
  /-- The call `svc.Broker.Request(subject, payload)`. -/
  brokerRequest : GoString → GoString → Except GoError Message

/-- The observable steps of one run of the handler, in order. -/
inductive Effect where
  | bodyParser
  | logWarn (err : GoError)
  | brokerRequest (subject payload : GoString)
  | setHeader (key value : GoString)
  | send (data : GoString)
  deriving DecidableEq, Repr

/-- How a run of the handler ends: it returns its error result, or it panics. -/
inductive Ending where
  | returned (err : Option GoError)
  | panicked
  deriving DecidableEq, Repr

/-- A run of the handler: its effects, in order, and its ending. -/
abbrev HandlerRun := List Effect × Ending

/-- The cloud event of a request: `cloudevents.NewEvent()` and the five setters. -/
def newEvent (w : World) (subject : GoString) (body : Body) : Event :=
  { id := w.newString
    source := "gateway-http".toList
    type := subject
    dataContentType := "application/json".toList
    data := body }

/-- The handler from `event := cloudevents.NewEvent()` to its end, given the subject, the
decoded body and the effects so far. -/
def forwardEvent (w : World) (r : Request) (subject : GoString) (body : Body)
    (fx : List Effect) : HandlerRun :=
  let event := newEvent w subject body
  match w.marshal event with
  | (_, some err) => (fx, Ending.returned (some err))
  | (encodedEvent, none) =>
    match w.brokerRequest subject encodedEvent with
    | Except.error _ =>
      (fx ++ [Effect.brokerRequest subject encodedEvent],
        Ending.returned (some GoError.InvalidService))
    | Except.ok msg =>
      match msg.Data with
      | none =>
        (fx ++ [Effect.brokerRequest subject encodedEvent,
            Effect.setHeader "Content-Type".toList "application/json; charset=utf-8".toList],
          Ending.panicked)
      | some data =>
        (fx ++ [Effect.brokerRequest subject encodedEvent,
            Effect.setHeader "Content-Type".toList "application/json; charset=utf-8".toList,
            Effect.send data],
          Ending.returned (r.send data))

/-- The handler registered for `/v1` in `main`. -/
def translationEndpoint (w : World) (r : Request) : HandlerRun :=
  match pathToSubject r.method r.path with
  | none => ([], Ending.panicked)
  | some (_, some err) => ([], Ending.returned (some err))
  | some (subject, none) =>
    if r.method = MethodPost || r.method = MethodPut then
      match r.bodyParser with
      | Except.error err =>
        ([Effect.bodyParser, Effect.logWarn err], Ending.returned (some err))
      | Except.ok body => forwardEvent w r subject body [Effect.bodyParser]
    else
      forwardEvent w r subject none []

/-- The number of `Broker.Request` calls among the effects. -/
def brokerCalls (fx : List Effect) : Nat :=
  fx.countP (fun e => match e with | Effect.brokerRequest _ _ => true | _ => false)

/-- The number of `Ctx.Send` calls among the effects. -/
def sendCalls (fx : List Effect) : Nat :=
  fx.countP (fun e => match e with | Effect.send _ => true | _ => false)

/-! ## `cmd/gateway-http/main.go`: loading the authorized users -/

/-- The body of the loop over `usersCreds`. -/
def credentialStep (users : GoMap) (userCred : GoString) : GoMap :=
  let userPass := stringsSplit userCred ':'
  if h : userPass.length = 2 then
    users.set (userPass.get ⟨0, by omega⟩) (userPass.get ⟨1, by omega⟩)
  else
    users

/-- The map `users` after the loop, for the value `env` of `AUTHORIZED_CREDENTIALS`. -/
def loadCredentials (env : GoString) : GoMap :=
  (stringsSplit env ',').foldl credentialStep []

/-! ## `pkg/service/service.go`: the service coordinator -/

/-- Modelled from the spec: the handler types `MessageHandler` and `RequestHandler` are
declared outside `service.go`; a handler is given by name, its code plays no part in
registration. -/
abbrev Handler := Nat

/-- Modelled from the spec: the interface `Broker` (bind, connect, subscribe, request,
publish) is declared outside `service.go`; an implementation is given as far as the
coordinator calls it. -/
structure BrokerPort where
  name : Nat
  /-- The error result of `Subscribe(endpoint, handler)`. -/
  subscribe : GoString → Handler → Option GoError
  /-- The error result of `Connect()`. -/
  connect : Option GoError

/-- Modelled from the spec: the interface `Gateway` (bind, route, listen) is declared outside
`service.go`; an implementation is given as far as the coordinator calls it. -/
structure GatewayPort where
  name : Nat

/-- The struct `Config`. -/
structure Config where
  Name : GoString
  Version : GoString

/-- The struct `Service`: a nil interface value is `none`.  The logger is observed through
the effects; the two channels serve `Start` only. -/
structure Service where
  Broker : Option BrokerPort
  Gateway : Option GatewayPort
  config : Config

/-- The observable steps of the coordinator's registration methods. -/
inductive SvcEffect where
  | brokerBind (port : Nat)
  | gatewayBind (port : Nat)
  | brokerSubscribe (port : Nat) (endpoint : GoString) (h : Handler)
  | gatewayRoute (port : Nat) (endpoint : GoString) (h : Handler)
  | logInfo (msg : GoString)
  | logFatal (err : GoError) (msg : GoString)
  deriving DecidableEq, Repr

/-- How a call of a coordinator method ends: it returns the service, or the process exits
in `Logger.Fatal()...Msg` (zerolog logs the event and calls `os.Exit(1)`), or a method call
on a nil interface panics. -/
inductive Outcome where
  | returned (svc : Service) (fx : List SvcEffect)
  | fatal (err : GoError) (fx : List SvcEffect)
  | panicked (fx : List SvcEffect)

/-- The effects of a call, however it ends. -/
def Outcome.effects : Outcome → List SvcEffect
  | Outcome.returned _ fx => fx
  | Outcome.fatal _ fx => fx
  | Outcome.panicked fx => fx

/-- The function `New`. -/
def New (config : Config) : Service :=
  { Broker := none, Gateway := none, config := config }

/-- The method `UseBroker`. -/
def UseBroker (svc : Service) (b : Option BrokerPort) : Outcome :=
  let svc := { svc with Broker := b }
  match svc.Broker with
  | none => Outcome.panicked []
  | some port => Outcome.returned svc [SvcEffect.brokerBind port.name]

/-- The method `UseGateway`. -/
def UseGateway (svc : Service) (g : Option GatewayPort) : Outcome :=
  let svc := { svc with Gateway := g }
  match svc.Gateway with
  | none => Outcome.panicked []
  | some port => Outcome.returned svc [SvcEffect.gatewayBind port.name]

/-- The method `BrokerEndpoint`. -/
def BrokerEndpoint (svc : Service) (endpoint : GoString) (messageHandler : Handler) :
    Outcome :=
  match svc.Broker with
  | none =>
    Outcome.fatal GoError.ErrNoBrokerConfigured
      [SvcEffect.logFatal GoError.ErrNoBrokerConfigured
        "Failed to register broker endpoint".toList]
  | some port =>
    match port.subscribe endpoint messageHandler with
    | some err =>
      Outcome.fatal err
        [SvcEffect.brokerSubscribe port.name endpoint messageHandler,
         SvcEffect.logFatal err "Failed to register broker endpoint".toList]
    | none =>
      Outcome.returned svc
        [SvcEffect.brokerSubscribe port.name endpoint messageHandler,
         SvcEffect.logInfo ("Endpoint registered: ".toList ++ endpoint)]

/-- The method `GatewayEndpoint`. -/
def GatewayEndpoint (svc : Service) (endpoint : GoString) (requestHandler : Handler) :
    Outcome :=
  match svc.Gateway with
  | none =>
    Outcome.fatal GoError.ErrNoGatewayConfigured
      [SvcEffect.logFatal GoError.ErrNoGatewayConfigured
        "Failed to register gateway endpoint".toList]
  | some port =>
    Outcome.returned svc [SvcEffect.gatewayRoute port.name endpoint requestHandler]

/-- A call of one of the configuration methods of a service. -/
inductive Call where
  | useBroker (b : Option BrokerPort)
  | useGateway (g : Option GatewayPort)
  | brokerEndpoint (endpoint : GoString) (h : Handler)
  | gatewayEndpoint (endpoint : GoString) (h : Handler)

/-- One call on a service. -/
def Call.run (svc : Service) : Call → Outcome
  | Call.useBroker b => UseBroker svc b
  | Call.useGateway g => UseGateway svc g
  | Call.brokerEndpoint endpoint h => BrokerEndpoint svc endpoint h
  | Call.gatewayEndpoint endpoint h => GatewayEndpoint svc endpoint h

/-- A sequence of calls on a service; the first call that does not return ends the run. -/
def runCalls (svc : Service) (fx : List SvcEffect) : List Call → Outcome
  | [] => Outcome.returned svc fx
  | c :: cs =>
    match c.run svc with
    | Outcome.returned svc1 fx1 => runCalls svc1 (fx ++ fx1) cs
    | Outcome.fatal err fx1 => Outcome.fatal err (fx ++ fx1)
    | Outcome.panicked fx1 => Outcome.panicked (fx ++ fx1)

/-- The call is `UseBroker`. -/
def Call.isUseBroker : Call → Bool
  | Call.useBroker _ => true
  | _ => false

/-- The call is `UseGateway`. -/
def Call.isUseGateway : Call → Bool
  | Call.useGateway _ => true
  | _ => false

/-- The effect is a `Gateway.Route` call. -/
def SvcEffect.isRoute : SvcEffect → Bool
  | SvcEffect.gatewayRoute _ _ _ => true
  | _ => false

/-- The effect is a `Broker.Subscribe` call. -/
def SvcEffect.isSubscribe : SvcEffect → Bool
  | SvcEffect.brokerSubscribe _ _ _ => true
  | _ => false

/-! ## Vocabulary of the specification and sample inputs -/

/-- The path `"/" + s1 + "/" + s2 + ... + "/" + sn` of the segments `s1, ..., sn`. -/
def pathOfSegments : List GoString → GoString
  | [] => []
  | s :: ss => '/' :: (s ++ pathOfSegments ss)

/-- The dotted form `s1.s2...sn` of the segments `s1, ..., sn`. -/
def dotJoin : List GoString → GoString
  | [] => []
  | [s] => s
  | s :: t :: ss => s ++ '.' :: dotJoin (t :: ss)

/-- A broker that is down: every request fails with a transport error. -/
def brokerDown : World :=
  { newString := "0000".toList
    marshal := fun ev => (ev.type, none)
    brokerRequest := fun _ _ => Except.error (GoError.other "nats: timeout".toList) }

/-- A broker that answers every request with the payload `{}`. -/
def brokerUp : World :=
  { newString := "0000".toList
    marshal := fun ev => (ev.type, none)
    brokerRequest := fun _ _ => Except.ok { Data := some "{}".toList } }

/-- A request of the given method and path, without body. -/
def plainRequest (method path : GoString) : Request :=
  { method := method
    path := path
    bodyParser := Except.ok none
    send := fun _ => none }

/-- A broker port whose `Subscribe` and `Connect` succeed. -/
def goodBroker : BrokerPort :=
  { name := 1, subscribe := fun _ _ => none, connect := none }

/-- A gateway port. -/
def goodGateway : GatewayPort :=
  { name := 2 }

/-- A service configuration. -/
def devConfig : Config :=
  { Name := "unknown".toList, Version := "dev".toList }

/-! ## The subject translator -/

theorem tokenSequence_cons (c : Char) (rest : GoString) :
    tokenSequence (c :: rest) = stringsReplaceAll rest '/' '.' := by
  simp [tokenSequence, stringsReplaceAll]

theorem pathToSubject_cons_odd (method : GoString) (c : Char) (rest : GoString)
    (hodd : (stringsReplaceAll rest '/' '.').count '.' % 2 = 1) :
    pathToSubject method (c :: rest) =
      if method = MethodPut ∨ method = MethodDelete then
        some ([], some GoError.InvalidEndpoint)
      else
        some (stringsReplaceAll rest '/' '.' ++ '.' :: mapListMethod.index method, none) := by
  simp [pathToSubject, stringsCount, sprintfDot, hodd]

theorem pathToSubject_cons_even (method : GoString) (c : Char) (rest : GoString)
    (heven : (stringsReplaceAll rest '/' '.').count '.' % 2 = 0) :
    pathToSubject method (c :: rest) =
      if method = MethodPost then some ([], some GoError.InvalidEndpoint)
      else some (mapMethod.index method, none) := by
  simp [pathToSubject, stringsCount, heven]

/-- C1: on a collection path (a non-empty path whose token sequence has an odd number of
dots) GET yields the token sequence followed by `.find`, POST yields it followed by
`.create`, both without error, and PUT and DELETE yield the empty subject with
`errs.InvalidEndpoint`. -/
theorem pathToSubject_collection (path : GoString) (hne : path ≠ [])
    (hodd : (tokenSequence path).count '.' % 2 = 1) :
    pathToSubject MethodGet path = some (tokenSequence path ++ ".find".toList, none) ∧
    pathToSubject MethodPost path = some (tokenSequence path ++ ".create".toList, none) ∧
    pathToSubject MethodPut path = some ([], some GoError.InvalidEndpoint) ∧
    pathToSubject MethodDelete path = some ([], some GoError.InvalidEndpoint) := by
  cases path with
  | nil => exact absurd rfl hne
  | cons c rest =>
    rw [tokenSequence_cons] at hodd ⊢
    refine ⟨?_, ?_, ?_, ?_⟩
    · rw [pathToSubject_cons_odd _ _ _ hodd, if_neg (by decide)]; rfl
    · rw [pathToSubject_cons_odd _ _ _ hodd, if_neg (by decide)]; rfl
    · rw [pathToSubject_cons_odd _ _ _ hodd, if_pos (by decide)]
    · rw [pathToSubject_cons_odd _ _ _ hodd, if_pos (by decide)]

/-- The scenario `GET /v1/users` gives the subject `v1.users.find`. -/
theorem pathToSubject_collection_witness :
    "/v1/users".toList ≠ [] ∧ (tokenSequence "/v1/users".toList).count '.' % 2 = 1 ∧
    pathToSubject MethodGet "/v1/users".toList = some ("v1.users.find".toList, none) :=
  ⟨by decide, by decide,
    (pathToSubject_collection "/v1/users".toList (by decide) (by decide)).1⟩

/-- C2: on the single-resource path `/v1/users/42` (two dots in its token sequence) the
method PUT yields the bare action `update`: the token sequence `v1.users.42` is not part
of the subject that `pathToSubject` returns. -/
theorem pathToSubject_single_drops_prefix :
    (tokenSequence "/v1/users/42".toList).count '.' % 2 = 0 ∧
    pathToSubject MethodPut "/v1/users/42".toList = some ("update".toList, none) ∧
    pathToSubject MethodPut "/v1/users/42".toList ≠
      some ("v1.users.42.update".toList, none) := by
  decide

/-- C3: on a single-resource path (a non-empty path whose token sequence has an even number
of dots) GET, PUT and DELETE return a subject without error, and POST returns the empty
subject with `errs.InvalidEndpoint`. -/
theorem pathToSubject_single_errors (path : GoString) (hne : path ≠ [])
    (heven : (tokenSequence path).count '.' % 2 = 0) :
    (∃ subject, pathToSubject MethodGet path = some (subject, none)) ∧
    (∃ subject, pathToSubject MethodPut path = some (subject, none)) ∧
    (∃ subject, pathToSubject MethodDelete path = some (subject, none)) ∧
    pathToSubject MethodPost path = some ([], some GoError.InvalidEndpoint) := by
  cases path with
  | nil => exact absurd rfl hne
  | cons c rest =>
    rw [tokenSequence_cons] at heven
    refine ⟨⟨mapMethod.index MethodGet, ?_⟩, ⟨mapMethod.index MethodPut, ?_⟩,
      ⟨mapMethod.index MethodDelete, ?_⟩, ?_⟩
    · rw [pathToSubject_cons_even _ _ _ heven, if_neg (by decide)]
    · rw [pathToSubject_cons_even _ _ _ heven, if_neg (by decide)]
    · rw [pathToSubject_cons_even _ _ _ heven, if_neg (by decide)]
    · rw [pathToSubject_cons_even _ _ _ heven, if_pos rfl]

/-- The path `/v1/users/42` accepts GET, PUT, DELETE and rejects POST. -/
theorem pathToSubject_single_errors_witness :
    "/v1/users/42".toList ≠ [] ∧ (tokenSequence "/v1/users/42".toList).count '.' % 2 = 0 ∧
    pathToSubject MethodPost "/v1/users/42".toList = some ([], some GoError.InvalidEndpoint) :=
  ⟨by decide, by decide,
    (pathToSubject_single_errors "/v1/users/42".toList (by decide) (by decide)).2.2.2⟩

/-- C4, as stated, fails: for the path `/`, which is empty once its leading separator is
stripped, GET returns the subject `read` with a nil error. -/
theorem root_path_accepted :
    ¬ ∀ method subject : GoString,
        pathToSubject method "/".toList ≠ some (subject, none) := by
  intro h
  exact h MethodGet "read".toList (by decide)

/-- C4, amended: `pathToSubject` makes no emptiness check and treats the path `/` as a
single-resource path: POST is rejected with `errs.InvalidEndpoint`, while GET, PUT and
DELETE return a nil error. -/
theorem pathToSubject_root_single_resource :
    pathToSubject MethodPost "/".toList = some ([], some GoError.InvalidEndpoint) ∧
    (∃ subject, pathToSubject MethodGet "/".toList = some (subject, none)) ∧
    (∃ subject, pathToSubject MethodPut "/".toList = some (subject, none)) ∧
    (∃ subject, pathToSubject MethodDelete "/".toList = some (subject, none)) :=
  ⟨by decide, ⟨"read".toList, by decide⟩, ⟨"update".toList, by decide⟩,
    ⟨"delete".toList, by decide⟩⟩

/-- C5: for the method PATCH, `pathToSubject` returns a nil error together with a subject
that ends with no action token: `v1.users.` on the collection path `/v1/users` (no
`errs.InvalidEndpoint`), and the empty subject on the single-resource path
`/v1/users/42`. -/
theorem pathToSubject_patch_no_action :
    pathToSubject "PATCH".toList "/v1/users".toList = some ("v1.users.".toList, none) ∧
    endsWithAction "v1.users.".toList = false ∧
    pathToSubject "PATCH".toList "/v1/users/42".toList = some ([], none) ∧
    endsWithAction [] = false := by
  decide

theorem stringsReplaceAll_of_not_mem (s : GoString) (h : '/' ∉ s) :
    stringsReplaceAll s '/' '.' = s := by
  induction s with
  | nil => rfl
  | cons c cs ih =>
    have hc : c ≠ '/' := fun e => h (e ▸ List.mem_cons_self _ _)
    have hcs : '/' ∉ cs := fun m => h (List.mem_cons_of_mem _ m)
    have ih1 := ih hcs
    simp only [stringsReplaceAll] at ih1 ⊢
    simp [hc, ih1]

theorem stringsReplaceAll_append (s t : GoString) :
    stringsReplaceAll (s ++ t) '/' '.' =
      stringsReplaceAll s '/' '.' ++ stringsReplaceAll t '/' '.' := by
  simp [stringsReplaceAll]

theorem stringsReplaceAll_segments (ss : List GoString) :
    ∀ s : GoString, '/' ∉ s → (∀ t ∈ ss, '/' ∉ t) →
      stringsReplaceAll (s ++ pathOfSegments ss) '/' '.' = dotJoin (s :: ss) := by
  induction ss with
  | nil =>
    intro s hs _
    simp [pathOfSegments, dotJoin, stringsReplaceAll_of_not_mem s hs]
  | cons t ts ih =>
    intro s hs hall
    have ht : '/' ∉ t := hall t (List.mem_cons_self _ _)
    have hts : ∀ u ∈ ts, '/' ∉ u := fun u hu => hall u (List.mem_cons_of_mem _ hu)
    have step := ih t ht hts
    rw [stringsReplaceAll_append, stringsReplaceAll_of_not_mem s hs]
    simp only [pathOfSegments, dotJoin]
    have hcons : stringsReplaceAll ('/' :: (t ++ pathOfSegments ts)) '/' '.' =
        '.' :: stringsReplaceAll (t ++ pathOfSegments ts) '/' '.' := by
      simp [stringsReplaceAll]
    rw [hcons, step]

theorem count_dotJoin (ss : List GoString) :
    ∀ s : GoString, '.' ∉ s → (∀ t ∈ ss, '.' ∉ t) →
      (dotJoin (s :: ss)).count '.' = ss.length := by
  induction ss with
  | nil =>
    intro s hs _
    simpa [dotJoin] using List.count_eq_zero_of_not_mem hs
  | cons t ts ih =>
    intro s hs hall
    have ht : '.' ∉ t := hall t (List.mem_cons_self _ _)
    have hts : ∀ u ∈ ts, '.' ∉ u := fun u hu => hall u (List.mem_cons_of_mem _ hu)
    have step := ih t ht hts
    simp only [dotJoin, List.count_append, List.count_cons_self, List.length_cons, step,
      List.count_eq_zero_of_not_mem hs]
    omega

/-- C6: a path `"/" + s1 + ... + "/" + sn` with `n ≥ 1` segments free of `/` and `.` is
classified by the parity of its `n - 1` segment boundaries: for odd `n - 1` it is a
collection path (GET yields `s1.s2...sn.find`, PUT is rejected with
`errs.InvalidEndpoint`), for even `n - 1` a single-resource path (POST is rejected with
`errs.InvalidEndpoint`, PUT is accepted). -/
theorem pathToSubject_segments (segs : List GoString) (hne : segs ≠ [])
    (hclean : ∀ s ∈ segs, '/' ∉ s ∧ '.' ∉ s) :
    ((segs.length - 1) % 2 = 1 →
      pathToSubject MethodGet (pathOfSegments segs) =
        some (dotJoin segs ++ ".find".toList, none) ∧
      pathToSubject MethodPut (pathOfSegments segs) =
        some ([], some GoError.InvalidEndpoint)) ∧
    ((segs.length - 1) % 2 = 0 →
      pathToSubject MethodPost (pathOfSegments segs) =
        some ([], some GoError.InvalidEndpoint) ∧
      ∃ subject, pathToSubject MethodPut (pathOfSegments segs) = some (subject, none)) := by
  cases segs with
  | nil => exact absurd rfl hne
  | cons s ss =>
    have hs := hclean s (List.mem_cons_self _ _)
    have hss : ∀ t ∈ ss, '/' ∉ t ∧ '.' ∉ t := fun t ht => hclean t (List.mem_cons_of_mem _ ht)
    have htok : stringsReplaceAll (s ++ pathOfSegments ss) '/' '.' = dotJoin (s :: ss) :=
      stringsReplaceAll_segments ss s hs.1 (fun t ht => (hss t ht).1)
    have hcount : (dotJoin (s :: ss)).count '.' = ss.length :=
      count_dotJoin ss s hs.2 (fun t ht => (hss t ht).2)
    simp only [List.length_cons, Nat.add_sub_cancel, pathOfSegments]
    constructor
    · intro hodd
      have h : (stringsReplaceAll (s ++ pathOfSegments ss) '/' '.').count '.' % 2 = 1 := by
        rw [htok, hcount]; exact hodd
      constructor
      · rw [pathToSubject_cons_odd _ _ _ h, if_neg (by decide), htok]; rfl
      · rw [pathToSubject_cons_odd _ _ _ h, if_pos (by decide)]
    · intro heven
      have h : (stringsReplaceAll (s ++ pathOfSegments ss) '/' '.').count '.' % 2 = 0 := by
        rw [htok, hcount]; exact heven
      constructor
      · rw [pathToSubject_cons_even _ _ _ h, if_pos rfl]
      · exact ⟨mapMethod.index MethodPut, by
          rw [pathToSubject_cons_even _ _ _ h, if_neg (by decide)]⟩

/-- The two-segment path `/v1/users` is a collection path and the three-segment path
`/v1/users/42` a single-resource path. -/
theorem pathToSubject_segments_witness :
    (pathOfSegments ["v1".toList, "users".toList] = "/v1/users".toList ∧
      pathToSubject MethodGet "/v1/users".toList = some ("v1.users.find".toList, none) ∧
      pathToSubject MethodPut "/v1/users".toList = some ([], some GoError.InvalidEndpoint)) ∧
    (pathOfSegments ["v1".toList, "users".toList, "42".toList] = "/v1/users/42".toList ∧
      pathToSubject MethodPost "/v1/users/42".toList =
        some ([], some GoError.InvalidEndpoint)) :=
  ⟨⟨by decide,
      ((pathToSubject_segments ["v1".toList, "users".toList] (by decide) (by decide)).1
        (by decide)).1,
      ((pathToSubject_segments ["v1".toList, "users".toList] (by decide) (by decide)).1
        (by decide)).2⟩,
    ⟨by decide,
      ((pathToSubject_segments ["v1".toList, "users".toList, "42".toList] (by decide)
        (by decide)).2 (by decide)).1⟩⟩

/-! ## The translation endpoint -/

/-- C7: when `pathToSubject` returns an error for the request's method and path, the
handler returns exactly that error and has no effect at all: no body parsing, no broker
`Request` call, nothing sent. -/
theorem translationEndpoint_translation_error (w : World) (r : Request)
    (subject : GoString) (err : GoError)
    (h : pathToSubject r.method r.path = some (subject, some err)) :
    translationEndpoint w r = ([], Ending.returned (some err)) ∧
    brokerCalls (translationEndpoint w r).1 = 0 := by
  have hrun : translationEndpoint w r = ([], Ending.returned (some err)) := by
    simp only [translationEndpoint, h]
  rw [hrun]
  exact ⟨rfl, rfl⟩

/-- The scenario `DELETE /v1/users`: the handler returns `errs.InvalidEndpoint` and calls
the broker zero times. -/
theorem translationEndpoint_translation_error_witness :
    pathToSubject MethodDelete "/v1/users".toList = some ([], some GoError.InvalidEndpoint) ∧
    translationEndpoint brokerUp (plainRequest MethodDelete "/v1/users".toList) =
      ([], Ending.returned (some GoError.InvalidEndpoint)) ∧
    brokerCalls
      (translationEndpoint brokerUp (plainRequest MethodDelete "/v1/users".toList)).1 = 0 :=
  ⟨by decide,
    translationEndpoint_translation_error brokerUp
      (plainRequest MethodDelete "/v1/users".toList) [] GoError.InvalidEndpoint (by decide)⟩

theorem forwardEvent_broker_error (w : World) (r : Request) (subj : GoString) (body : Body)
    (fx : List Effect) (hfx : ∀ s p, Effect.brokerRequest s p ∉ fx)
    (subject payload : GoString) (err : GoError)
    (hcall : Effect.brokerRequest subject payload ∈ (forwardEvent w r subj body fx).1)
    (herr : w.brokerRequest subject payload = Except.error err) :
    subject = subj ∧
    w.marshal (newEvent w subj body) = (payload, none) ∧
    forwardEvent w r subj body fx =
      (fx ++ [Effect.brokerRequest subject payload],
        Ending.returned (some GoError.InvalidService)) := by
  unfold forwardEvent at hcall ⊢
  simp only at hcall ⊢
  rcases hm : w.marshal (newEvent w subj body) with ⟨enc, merr⟩
  rw [hm] at hcall
  cases merr with
  | some e => exact absurd hcall (hfx _ _)
  | none =>
    simp only at hcall ⊢
    cases hb : w.brokerRequest subj enc with
    | error e =>
      rw [hb] at hcall
      simp only [List.mem_append, List.mem_singleton, Effect.brokerRequest.injEq] at hcall
      rcases hcall with hin | ⟨h1, h2⟩
      · exact absurd hin (hfx _ _)
      · subst h1; subst h2
        exact ⟨rfl, rfl, rfl⟩
    | ok msg =>
      rw [hb] at hcall
      simp only at hcall
      cases hd : msg.Data with
      | none =>
        rw [hd] at hcall
        simp only [List.mem_append, List.mem_cons, Effect.brokerRequest.injEq,
          List.mem_singleton, List.not_mem_nil, or_false, reduceCtorEq] at hcall
        rcases hcall with hin | ⟨h1, h2⟩
        · exact absurd hin (hfx _ _)
        · subst h1; subst h2
          rw [hb] at herr
          exact absurd herr (by simp)
      | some data =>
        rw [hd] at hcall
        simp only [List.mem_append, List.mem_cons, Effect.brokerRequest.injEq,
          List.mem_singleton, List.not_mem_nil, or_false, reduceCtorEq] at hcall
        rcases hcall with hin | ⟨h1, h2⟩
        · exact absurd hin (hfx _ _)
        · subst h1; subst h2
          rw [hb] at herr
          exact absurd herr (by simp)

theorem translationEndpoint_reaches_broker (w : World) (r : Request)
    (subject payload : GoString)
    (hcall : Effect.brokerRequest subject payload ∈ (translationEndpoint w r).1) :
    ∃ body fx, (∀ s p, Effect.brokerRequest s p ∉ fx) ∧ sendCalls fx = 0 ∧
      (∀ w1 : World, translationEndpoint w1 r = forwardEvent w1 r subject body fx) ∧
      Effect.brokerRequest subject payload ∈ (forwardEvent w r subject body fx).1 := by
  unfold translationEndpoint at hcall
  cases hp : pathToSubject r.method r.path with
  | none => rw [hp] at hcall; simp at hcall
  | some res =>
    rcases res with ⟨subj, perr⟩
    rw [hp] at hcall
    cases perr with
    | some e => simp at hcall
    | none =>
      simp only at hcall
      by_cases hmeth : (r.method = MethodPost || r.method = MethodPut) = true
      · rw [if_pos hmeth] at hcall
        cases hbody : r.bodyParser with
        | error e => rw [hbody] at hcall; simp at hcall
        | ok body =>
          rw [hbody] at hcall
          simp only at hcall
          have hfx : ∀ s p, Effect.brokerRequest s p ∉ [Effect.bodyParser] := by simp
          have hs : subject = subj := by
            unfold forwardEvent at hcall
            simp only at hcall
            split at hcall
            · exact absurd hcall (hfx _ _)
            · split at hcall
              · simp at hcall; exact hcall.1
              · split at hcall
                · simp at hcall; exact hcall.1
                · simp at hcall; exact hcall.1
          subst hs
          refine ⟨body, [Effect.bodyParser], hfx, rfl, ?_, hcall⟩
          intro w1
          simp only [translationEndpoint, hp, if_pos hmeth, hbody]
      · rw [if_neg hmeth] at hcall
        have hfx : ∀ s p, Effect.brokerRequest s p ∉ ([] : List Effect) := by simp
        have hs : subject = subj := by
          unfold forwardEvent at hcall
          simp only at hcall
          split at hcall
          · exact absurd hcall (hfx _ _)
          · split at hcall
            · simp at hcall; exact hcall.1
            · split at hcall
              · simp at hcall; exact hcall.1
              · simp at hcall; exact hcall.1
        subst hs
        refine ⟨none, [], hfx, rfl, ?_, hcall⟩
        intro w1
        simp only [translationEndpoint, hp, if_neg hmeth]

/-- C8: when the broker `Request` call of a run returns an error, the handler returns
`errs.InvalidService` and sends nothing, and the run is the same whatever error value
the broker returned. -/
theorem translationEndpoint_broker_error (w : World) (r : Request)
    (subject payload : GoString) (err : GoError)
    (hcall : Effect.brokerRequest subject payload ∈ (translationEndpoint w r).1)
    (herr : w.brokerRequest subject payload = Except.error err) :
    (translationEndpoint w r).2 = Ending.returned (some GoError.InvalidService) ∧
    sendCalls (translationEndpoint w r).1 = 0 ∧
    ∀ w1 : World, w1.newString = w.newString → w1.marshal = w.marshal →
      (∃ err1, w1.brokerRequest subject payload = Except.error err1) →
      translationEndpoint w1 r = translationEndpoint w r := by
  obtain ⟨body, fx, hfx, hsend, hrun, hin⟩ :=
    translationEndpoint_reaches_broker w r subject payload hcall
  obtain ⟨_, hm, hfwd⟩ :=
    forwardEvent_broker_error w r subject body fx hfx subject payload err hin herr
  refine ⟨?_, ?_, ?_⟩
  · rw [hrun w, hfwd]
  · rw [hrun w, hfwd]
    unfold sendCalls at hsend ⊢
    simp only [List.countP_append, hsend]
    rfl
  · intro w1 hid hmar ⟨err1, herr1⟩
    rw [hrun w1, hrun w, hfwd]
    have hm1 : w1.marshal (newEvent w1 subject body) = (payload, none) := by
      rw [hmar]
      have : newEvent w1 subject body = newEvent w subject body := by
        simp [newEvent, hid]
      rw [this, hm]
    simp only [forwardEvent, hm1, herr1]

/-- With the broker down, `POST /v1/users` is answered with `errs.InvalidService` and
nothing is sent. -/
theorem translationEndpoint_broker_error_witness :
    Effect.brokerRequest "v1.users.create".toList "v1.users.create".toList ∈
      (translationEndpoint brokerDown (plainRequest MethodPost "/v1/users".toList)).1 ∧
    (translationEndpoint brokerDown (plainRequest MethodPost "/v1/users".toList)).2 =
      Ending.returned (some GoError.InvalidService) ∧
    sendCalls (translationEndpoint brokerDown (plainRequest MethodPost "/v1/users".toList)).1
      = 0 :=
  ⟨by decide,
    (translationEndpoint_broker_error brokerDown (plainRequest MethodPost "/v1/users".toList)
      "v1.users.create".toList "v1.users.create".toList (GoError.other "nats: timeout".toList)
      (by decide) rfl).1,
    (translationEndpoint_broker_error brokerDown (plainRequest MethodPost "/v1/users".toList)
      "v1.users.create".toList "v1.users.create".toList (GoError.other "nats: timeout".toList)
      (by decide) rfl).2.1⟩

/-! ## The service coordinator -/

theorem Call.run_ports (c : Call) (svc0 svc1 : Service) (fx1 : List SvcEffect)
    (h : c.run svc0 = Outcome.returned svc1 fx1) :
    svc1.Gateway.isSome = (svc0.Gateway.isSome || c.isUseGateway) ∧
    svc1.Broker.isSome = (svc0.Broker.isSome || c.isUseBroker) := by
  cases c with
  | useBroker b =>
    cases b with
    | none => simp [Call.run, UseBroker] at h
    | some port =>
      simp only [Call.run, UseBroker, Outcome.returned.injEq] at h
      rw [← h.1]
      simp [Call.isUseGateway, Call.isUseBroker]
  | useGateway g =>
    cases g with
    | none => simp [Call.run, UseGateway] at h
    | some port =>
      simp only [Call.run, UseGateway, Outcome.returned.injEq] at h
      rw [← h.1]
      simp [Call.isUseGateway, Call.isUseBroker]
  | brokerEndpoint endpoint hd =>
    simp only [Call.run, BrokerEndpoint] at h
    split at h
    · simp at h
    · split at h
      · simp at h
      · simp only [Outcome.returned.injEq] at h
        rw [← h.1]
        simp [Call.isUseGateway, Call.isUseBroker]
  | gatewayEndpoint endpoint hd =>
    simp only [Call.run, GatewayEndpoint] at h
    split at h
    · simp at h
    · simp only [Outcome.returned.injEq] at h
      rw [← h.1]
      simp [Call.isUseGateway, Call.isUseBroker]

theorem runCalls_ports (calls : List Call) :
    ∀ (svc0 : Service) (fx0 : List SvcEffect) (svc : Service) (fx : List SvcEffect),
      runCalls svc0 fx0 calls = Outcome.returned svc fx →
      svc.Gateway.isSome = (svc0.Gateway.isSome || calls.any Call.isUseGateway) ∧
      svc.Broker.isSome = (svc0.Broker.isSome || calls.any Call.isUseBroker) := by
  induction calls with
  | nil =>
    intro svc0 fx0 svc fx h
    simp only [runCalls, Outcome.returned.injEq] at h
    rw [← h.1]
    simp
  | cons c cs ih =>
    intro svc0 fx0 svc fx h
    simp only [runCalls] at h
    cases hc : c.run svc0 with
    | returned svc1 fx1 =>
      rw [hc] at h
      have h1 := Call.run_ports c svc0 svc1 fx1 hc
      have h2 := ih svc1 (fx0 ++ fx1) svc fx h
      rw [h2.1, h2.2, h1.1, h1.2]
      simp [Bool.or_assoc]
    | fatal err fx1 => rw [hc] at h; simp at h
    | panicked fx1 => rw [hc] at h; simp at h

theorem runCalls_append (cs ds : List Call) :
    ∀ (svc0 : Service) (fx0 : List SvcEffect) (svc : Service) (fx : List SvcEffect),
      runCalls svc0 fx0 cs = Outcome.returned svc fx →
      runCalls svc0 fx0 (cs ++ ds) = runCalls svc fx ds := by
  induction cs with
  | nil =>
    intro svc0 fx0 svc fx h
    simp only [runCalls, Outcome.returned.injEq] at h
    rw [List.nil_append, h.1, h.2]
  | cons c cs ih =>
    intro svc0 fx0 svc fx h
    simp only [runCalls, List.cons_append] at h ⊢
    cases hc : c.run svc0 with
    | returned svc1 fx1 =>
      rw [hc] at h
      simp only at h ⊢
      exact ih svc1 (fx0 ++ fx1) svc fx h
    | fatal err fx1 => rw [hc] at h; simp at h
    | panicked fx1 => rw [hc] at h; simp at h

/-- C9: for a service obtained from `New` by calls of its configuration methods, if
`UseGateway` is not among the calls then `GatewayEndpoint` ends the process with
`ErrNoGatewayConfigured` and makes no `Route` call, and if `UseBroker` is not among them then
`BrokerEndpoint` ends the process with `ErrNoBrokerConfigured` and makes no `Subscribe` call;
if `UseGateway` is among the calls then `GatewayEndpoint` returns after a `Route` call, and
if `UseBroker` is among them then `BrokerEndpoint` makes a `Subscribe` call.  Moreover a
`UseGateway` call with a gateway `g` on that service returns, having stored `g` and called
its `Bind`, and the `GatewayEndpoint` call that follows returns after `Route` on `g`; a
`UseBroker` call with a broker `b` returns, having stored `b` and called its `Bind`, and
the `BrokerEndpoint` call that follows starts with `Subscribe` on `b`. -/
theorem endpoint_requires_port (cfg : Config) (calls : List Call) (svc : Service)
    (fx : List SvcEffect) (endpoint : GoString) (h : Handler)
    (hrun : runCalls (New cfg) [] calls = Outcome.returned svc fx) :
    (calls.any Call.isUseGateway = false →
      GatewayEndpoint svc endpoint h =
        Outcome.fatal GoError.ErrNoGatewayConfigured
          [SvcEffect.logFatal GoError.ErrNoGatewayConfigured
            "Failed to register gateway endpoint".toList] ∧
      (GatewayEndpoint svc endpoint h).effects.any SvcEffect.isRoute = false) ∧
    (calls.any Call.isUseBroker = false →
      BrokerEndpoint svc endpoint h =
        Outcome.fatal GoError.ErrNoBrokerConfigured
          [SvcEffect.logFatal GoError.ErrNoBrokerConfigured
            "Failed to register broker endpoint".toList] ∧
      (BrokerEndpoint svc endpoint h).effects.any SvcEffect.isSubscribe = false) ∧
    (calls.any Call.isUseGateway = true →
      ∃ port, svc.Gateway = some port ∧
        GatewayEndpoint svc endpoint h =
          Outcome.returned svc [SvcEffect.gatewayRoute port.name endpoint h]) ∧
    (calls.any Call.isUseBroker = true →
      ∃ port, svc.Broker = some port ∧
        SvcEffect.brokerSubscribe port.name endpoint h ∈
          (BrokerEndpoint svc endpoint h).effects) ∧
    (∀ g : GatewayPort,
      UseGateway svc (some g) =
        Outcome.returned { svc with Gateway := some g } [SvcEffect.gatewayBind g.name] ∧
      runCalls (New cfg) []
          (calls ++ [Call.useGateway (some g), Call.gatewayEndpoint endpoint h]) =
        Outcome.returned { svc with Gateway := some g }
          (fx ++ [SvcEffect.gatewayBind g.name, SvcEffect.gatewayRoute g.name endpoint h])) ∧
    (∀ b : BrokerPort,
      UseBroker svc (some b) =
        Outcome.returned { svc with Broker := some b } [SvcEffect.brokerBind b.name] ∧
      runCalls (New cfg) [] (calls ++ [Call.useBroker (some b)]) =
        Outcome.returned { svc with Broker := some b } (fx ++ [SvcEffect.brokerBind b.name]) ∧
      (BrokerEndpoint { svc with Broker := some b } endpoint h).effects.head? =
        some (SvcEffect.brokerSubscribe b.name endpoint h)) := by
  have hports := runCalls_ports calls (New cfg) [] svc fx hrun
  simp only [New, Option.isSome_none, Bool.false_or] at hports
  refine ⟨?_, ?_, ?_, ?_, ?_, ?_⟩
  · intro hno
    have hg : svc.Gateway = none := by
      have := hports.1
      rw [hno] at this
      cases hsg : svc.Gateway with
      | none => rfl
      | some port => rw [hsg] at this; simp at this
    simp [GatewayEndpoint, hg, Outcome.effects, SvcEffect.isRoute]
  · intro hno
    have hb : svc.Broker = none := by
      have := hports.2
      rw [hno] at this
      cases hsb : svc.Broker with
      | none => rfl
      | some port => rw [hsb] at this; simp at this
    simp [BrokerEndpoint, hb, Outcome.effects, SvcEffect.isSubscribe]
  · intro hyes
    have := hports.1
    rw [hyes] at this
    cases hsg : svc.Gateway with
    | none => rw [hsg] at this; simp at this
    | some port =>
      exact ⟨port, rfl, by simp [GatewayEndpoint, hsg]⟩
  · intro hyes
    have := hports.2
    rw [hyes] at this
    cases hsb : svc.Broker with
    | none => rw [hsb] at this; simp at this
    | some port =>
      refine ⟨port, rfl, ?_⟩
      simp only [BrokerEndpoint, hsb]
      cases port.subscribe endpoint h <;> simp [Outcome.effects]
  · intro g
    refine ⟨rfl, ?_⟩
    rw [runCalls_append calls _ (New cfg) [] svc fx hrun]
    simp [runCalls, Call.run, UseGateway, GatewayEndpoint]
  · intro b
    refine ⟨rfl, ?_, ?_⟩
    · rw [runCalls_append calls _ (New cfg) [] svc fx hrun]
      simp [runCalls, Call.run, UseBroker]
    · simp only [BrokerEndpoint]
      cases b.subscribe endpoint h <;> simp [Outcome.effects]

/-- A registration before `UseGateway` ends the process without a `Route` call; after
`UseBroker`, `BrokerEndpoint` reaches `Subscribe`; a run with `UseGateway` returns and the
`GatewayEndpoint` call after it reaches `Route` on the bound gateway. -/
theorem endpoint_requires_port_witness :
    runCalls (New devConfig) [] [Call.useBroker (some goodBroker)] =
      Outcome.returned { Broker := some goodBroker, Gateway := none, config := devConfig }
        [SvcEffect.brokerBind 1] ∧
    GatewayEndpoint { Broker := some goodBroker, Gateway := none, config := devConfig }
        "/v1".toList 7 =
      Outcome.fatal GoError.ErrNoGatewayConfigured
        [SvcEffect.logFatal GoError.ErrNoGatewayConfigured
          "Failed to register gateway endpoint".toList] ∧
    (∃ port, some goodBroker = some port ∧
      SvcEffect.brokerSubscribe port.name "v1.>".toList 7 ∈
        (BrokerEndpoint { Broker := some goodBroker, Gateway := none, config := devConfig }
          "v1.>".toList 7).effects) ∧
    runCalls (New devConfig) []
        [Call.useBroker (some goodBroker), Call.useGateway (some goodGateway)] =
      Outcome.returned
        { Broker := some goodBroker, Gateway := some goodGateway, config := devConfig }
        [SvcEffect.brokerBind 1, SvcEffect.gatewayBind 2] ∧
    [Call.useBroker (some goodBroker), Call.useGateway (some goodGateway)].any
        Call.isUseGateway = true ∧
    (∃ port, some goodGateway = some port ∧
      GatewayEndpoint
          { Broker := some goodBroker, Gateway := some goodGateway, config := devConfig }
          "/v1".toList 7 =
        Outcome.returned
          { Broker := some goodBroker, Gateway := some goodGateway, config := devConfig }
          [SvcEffect.gatewayRoute port.name "/v1".toList 7]) ∧
    runCalls (New devConfig) []
        [Call.useBroker (some goodBroker), Call.useGateway (some goodGateway),
          Call.gatewayEndpoint "/v1".toList 7] =
      Outcome.returned
        { Broker := some goodBroker, Gateway := some goodGateway, config := devConfig }
        [SvcEffect.brokerBind 1, SvcEffect.gatewayBind 2,
          SvcEffect.gatewayRoute 2 "/v1".toList 7] :=
  ⟨rfl,
    ((endpoint_requires_port devConfig [Call.useBroker (some goodBroker)]
      { Broker := some goodBroker, Gateway := none, config := devConfig }
      [SvcEffect.brokerBind 1] "/v1".toList 7 rfl).1 rfl).1,
    (endpoint_requires_port devConfig [Call.useBroker (some goodBroker)]
      { Broker := some goodBroker, Gateway := none, config := devConfig }
      [SvcEffect.brokerBind 1] "v1.>".toList 7 rfl).2.2.2.1 rfl,
    rfl, rfl,
    (endpoint_requires_port devConfig
      [Call.useBroker (some goodBroker), Call.useGateway (some goodGateway)]
      { Broker := some goodBroker, Gateway := some goodGateway, config := devConfig }
      [SvcEffect.brokerBind 1, SvcEffect.gatewayBind 2] "/v1".toList 7 rfl).2.2.1 rfl,
    ((endpoint_requires_port devConfig [Call.useBroker (some goodBroker)]
      { Broker := some goodBroker, Gateway := none, config := devConfig }
      [SvcEffect.brokerBind 1] "/v1".toList 7 rfl).2.2.2.2.1 goodGateway).2⟩

/-! ## Loading the authorized users -/

theorem stringsSplit_ne_nil (s : GoString) (sep : Char) : stringsSplit s sep ≠ [] := by
  cases s with
  | nil => simp [stringsSplit]
  | cons c cs =>
    simp only [stringsSplit]
    split
    · simp
    · split <;> simp

theorem stringsSplit_length (s : GoString) (sep : Char) :
    (stringsSplit s sep).length = s.count sep + 1 := by
  induction s with
  | nil => simp [stringsSplit]
  | cons c cs ih =>
    simp only [stringsSplit]
    by_cases hc : c = sep
    · subst hc
      simp [ih]
    · rw [if_neg hc]
      have hcount : (c :: cs).count sep = cs.count sep := by
        rw [List.count_cons_of_ne (Ne.symm hc)]
      rw [hcount, ← ih]
      cases hsp : stringsSplit cs sep with
      | nil => exact absurd hsp (stringsSplit_ne_nil cs sep)
      | cons piece pieces => simp

theorem stringsSplit_of_not_mem (s : GoString) (sep : Char) (h : sep ∉ s) :
    stringsSplit s sep = [s] := by
  induction s with
  | nil => rfl
  | cons c cs ih =>
    have hc : c ≠ sep := fun e => h (e ▸ List.mem_cons_self _ _)
    have hcs : sep ∉ cs := fun m => h (List.mem_cons_of_mem _ m)
    simp [stringsSplit, hc, ih hcs]

theorem stringsSplit_append_sep (u p : GoString) (sep : Char) (h : sep ∉ u) :
    stringsSplit (u ++ sep :: p) sep = u :: stringsSplit p sep := by
  induction u with
  | nil => simp [stringsSplit]
  | cons c cs ih =>
    have hc : c ≠ sep := fun e => h (e ▸ List.mem_cons_self _ _)
    have hcs : sep ∉ cs := fun m => h (List.mem_cons_of_mem _ m)
    simp [stringsSplit, hc, ih hcs]

theorem stringsSplit_singleton (s p : GoString) (sep : Char)
    (h : stringsSplit s sep = [p]) : s = p ∧ sep ∉ p := by
  by_cases hmem : sep ∈ s
  · obtain ⟨a, b, hab, ha⟩ := List.eq_append_cons_of_mem hmem
    rw [hab, stringsSplit_append_sep a b sep ha] at h
    simp only [List.cons.injEq] at h
    exact absurd h.2 (stringsSplit_ne_nil b sep)
  · rw [stringsSplit_of_not_mem s sep hmem] at h
    simp only [List.cons.injEq, and_true] at h
    subst h
    exact ⟨rfl, hmem⟩

/-- The item is `u`, a colon, `p`, with no further colon: it splits on `:` into exactly the
two parts `[u, p]`. -/
theorem stringsSplit_pair (item u p : GoString) (sep : Char) :
    stringsSplit item sep = [u, p] ↔ item = u ++ sep :: p ∧ sep ∉ u ∧ sep ∉ p := by
  constructor
  · intro h
    by_cases hmem : sep ∈ item
    · obtain ⟨a, b, hab, ha⟩ := List.eq_append_cons_of_mem hmem
      rw [hab, stringsSplit_append_sep a b sep ha] at h
      simp only [List.cons.injEq] at h
      obtain ⟨hau, hb⟩ := h
      obtain ⟨hbp, hp⟩ := stringsSplit_singleton b p sep hb
      subst hau; subst hbp
      exact ⟨hab, ha, hp⟩
    · rw [stringsSplit_of_not_mem item sep hmem] at h
      simp at h
  · rintro ⟨hitem, hu, hp⟩
    rw [hitem, stringsSplit_append_sep u p sep hu, stringsSplit_of_not_mem p sep hp]

theorem GoMap.lookup_filter_ne (m : GoMap) (k k1 : GoString) (h : k1 ≠ k) :
    (m.filter (fun e => e.1 != k)).lookup k1 = m.lookup k1 := by
  induction m with
  | nil => rfl
  | cons e es ih =>
    obtain ⟨a, b⟩ := e
    by_cases hak : a = k
    · subst hak
      have hk : (k1 == a) = false := by simpa using h
      simp [List.filter_cons, List.lookup_cons, hk, ih]
    · have hak1 : (a != k) = true := by simpa using hak
      simp only [List.filter_cons, hak1, if_true, List.lookup_cons, ih]

theorem GoMap.get?_set (m : GoMap) (k v k1 : GoString) :
    (m.set k v).get? k1 = if k1 = k then some v else m.get? k1 := by
  by_cases h : k1 = k
  · subst h
    simp [GoMap.set, GoMap.get?]
  · have hk : (k1 == k) = false := by simpa using h
    simp only [GoMap.set, GoMap.get?, List.lookup_cons, hk, if_neg h]
    exact GoMap.lookup_filter_ne m k k1 h

theorem credentialStep_of_split (users : GoMap) (item : GoString) :
    credentialStep users item =
      match stringsSplit item ':' with
      | [u, p] => users.set u p
      | _ => users := by
  have key : ∀ pieces : List GoString,
      (if h : pieces.length = 2 then
          users.set (pieces.get ⟨0, by omega⟩) (pieces.get ⟨1, by omega⟩)
        else users) =
      match pieces with
      | [u, p] => users.set u p
      | _ => users := by
    intro pieces
    match pieces with
    | [] => simp
    | [_] => simp
    | [_, _] => simp
    | _ :: _ :: _ :: _ => simp
  exact key (stringsSplit item ':')

theorem credentialStep_pair (users : GoMap) (item u p : GoString)
    (h : item = u ++ ':' :: p ∧ ':' ∉ u ∧ ':' ∉ p) :
    credentialStep users item = users.set u p := by
  rw [credentialStep_of_split, (stringsSplit_pair item u p ':').2 h]

theorem credentialStep_skip (users : GoMap) (item : GoString)
    (h : ∀ u p : GoString, ¬ (item = u ++ ':' :: p ∧ ':' ∉ u ∧ ':' ∉ p)) :
    credentialStep users item = users := by
  rw [credentialStep_of_split]
  split
  · next u p hsp => exact absurd ((stringsSplit_pair item u p ':').1 hsp) (h u p)
  · rfl

theorem credentialStep_count (users : GoMap) (item : GoString) (h : item.count ':' ≠ 1) :
    credentialStep users item = users := by
  apply credentialStep_skip
  rintro u p ⟨hitem, hu, hp⟩
  apply h
  rw [hitem, List.count_append, List.count_cons_self, List.count_eq_zero_of_not_mem hu,
    List.count_eq_zero_of_not_mem hp]

/-- The entry of `u` after one step of the loop. -/
theorem credentialStep_get? (users : GoMap) (item u : GoString) :
    (∃ p, (item = u ++ ':' :: p ∧ ':' ∉ u ∧ ':' ∉ p) ∧
      (credentialStep users item).get? u = some p) ∨
    ((∀ p, ¬ (item = u ++ ':' :: p ∧ ':' ∉ u ∧ ':' ∉ p)) ∧
      (credentialStep users item).get? u = users.get? u) := by
  by_cases hex : ∃ v p, item = v ++ ':' :: p ∧ ':' ∉ v ∧ ':' ∉ p
  · obtain ⟨v, p, hpair⟩ := hex
    rw [credentialStep_pair users item v p hpair, GoMap.get?_set]
    by_cases huv : u = v
    · subst huv
      exact Or.inl ⟨p, hpair, by simp⟩
    · refine Or.inr ⟨?_, by simp [huv]⟩
      rintro q ⟨hq, hu, hq2⟩
      have h1 := (stringsSplit_pair item u q ':').2 ⟨hq, hu, hq2⟩
      have h2 := (stringsSplit_pair item v p ':').2 hpair
      rw [h1] at h2
      simp only [List.cons.injEq, and_true] at h2
      exact huv h2.1
  · have hskip : ∀ v p : GoString, ¬ (item = v ++ ':' :: p ∧ ':' ∉ v ∧ ':' ∉ p) :=
      fun v p hvp => hex ⟨v, p, hvp⟩
    rw [credentialStep_skip users item hskip]
    exact Or.inr ⟨fun p => hskip u p, rfl⟩

theorem split_last (init pre post : List GoString) (x item : GoString)
    (h : init ++ [x] = pre ++ item :: post) :
    (post = [] ∧ init = pre ∧ x = item) ∨
    (∃ post0, post = post0 ++ [x] ∧ init = pre ++ item :: post0) := by
  rcases List.eq_nil_or_concat post with hnil | ⟨post0, y, hpost⟩
  · subst hnil
    have h1 := List.append_inj' h rfl
    simp only [List.cons.injEq, and_true] at h1
    exact Or.inl ⟨rfl, h1.1, h1.2⟩
  · rw [List.concat_eq_append] at hpost
    subst hpost
    have h2 : init ++ [x] = (pre ++ item :: post0) ++ [y] := by
      rw [h]; simp
    have h1 := List.append_inj' h2 rfl
    simp only [List.cons.injEq, and_true] at h1
    exact Or.inr ⟨post0, by rw [h1.2], h1.1⟩

theorem foldl_credentialStep_get? (items : List GoString) (u p : GoString) :
    (items.foldl credentialStep []).get? u = some p ↔
      ∃ pre post, items = pre ++ (u ++ ':' :: p) :: post ∧ ':' ∉ u ∧ ':' ∉ p ∧
        ∀ item ∈ post, ∀ q : GoString, ':' ∉ q → item ≠ u ++ ':' :: q := by
  induction items using List.reverseRecOn generalizing p with
  | nil =>
    constructor
    · intro h
      simp [GoMap.get?] at h
    · rintro ⟨pre, post, h, _⟩
      simp at h
  | append_singleton init x ih =>
    rw [List.foldl_append, List.foldl_cons, List.foldl_nil]
    rcases credentialStep_get? (init.foldl credentialStep []) x u with
      ⟨p0, hpair, hget⟩ | ⟨hno, hget⟩
    · rw [hget]
      constructor
      · intro h
        simp only [Option.some.injEq] at h
        subst h
        refine ⟨init, [], by rw [hpair.1], hpair.2.1, hpair.2.2, ?_⟩
        intro item hitem
        simp at hitem
      · rintro ⟨pre, post, h, hu, hp, hpost⟩
        rcases split_last init pre post x _ h with ⟨_, _, hx⟩ | ⟨post0, hp0, _⟩
        · rw [hpair.1] at hx
          have := List.append_cancel_left hx
          simp only [List.cons.injEq, true_and] at this
          rw [this]
        · exfalso
          apply hpost x (by rw [hp0]; simp) p0 hpair.2.2
          exact hpair.1
    · rw [hget, ih]
      constructor
      · rintro ⟨pre, post, h, hu, hp, hpost⟩
        refine ⟨pre, post ++ [x], by rw [h]; simp, hu, hp, ?_⟩
        intro item hitem q hq hitemq
        simp only [List.mem_append, List.mem_singleton] at hitem
        rcases hitem with hin | hx
        · exact hpost item hin q hq hitemq
        · subst hx
          exact hno q ⟨hitemq, hu, hq⟩
      · rintro ⟨pre, post, h, hu, hp, hpost⟩
        rcases split_last init pre post x _ h with ⟨_, _, hx⟩ | ⟨post0, hp0, hinit⟩
        · exact absurd ⟨hx, hu, hp⟩ (hno p)
        · refine ⟨pre, post0, hinit, hu, hp, ?_⟩
          intro item hitem
          exact hpost item (by rw [hp0]; simp [hitem])

/-- C10: the map built from `AUTHORIZED_CREDENTIALS` has the entry `u -> p` exactly when the
last comma-separated item of the form `u:q` with one colon is `u:p`; an item whose number of
colons is not one leaves the map as it is; the loop is a total function of the value. -/
theorem loadCredentials_last_pair (env u p : GoString) :
    ((loadCredentials env).get? u = some p ↔
      ∃ pre post, stringsSplit env ',' = pre ++ (u ++ ':' :: p) :: post ∧
        ':' ∉ u ∧ ':' ∉ p ∧
        ∀ item ∈ post, ∀ q : GoString, ':' ∉ q → item ≠ u ++ ':' :: q) ∧
    (∀ item : GoString, (stringsSplit item ':').length = 2 ↔ item.count ':' = 1) ∧
    (∀ (users : GoMap) (item : GoString),
      item.count ':' ≠ 1 → credentialStep users item = users) := by
  refine ⟨foldl_credentialStep_get? (stringsSplit env ',') u p, ?_, ?_⟩
  · intro item
    rw [stringsSplit_length]
    omega
  · exact fun users item h => credentialStep_count users item h

/-- With `alice:a,bob,carol:x:y,alice:b,:z` the map holds `alice -> b` (the later pair
wins) and the empty user with `z`, and it holds no `bob` and no `carol`. -/
theorem loadCredentials_last_pair_witness :
    ((loadCredentials "alice:a,bob,carol:x:y,alice:b,:z".toList).get? "alice".toList =
        some "b".toList ↔
      ∃ pre post, stringsSplit "alice:a,bob,carol:x:y,alice:b,:z".toList ',' =
          pre ++ ("alice".toList ++ ':' :: "b".toList) :: post ∧
        ':' ∉ "alice".toList ∧ ':' ∉ "b".toList ∧
        ∀ item ∈ post, ∀ q : GoString, ':' ∉ q → item ≠ "alice".toList ++ ':' :: q) ∧
    (loadCredentials "alice:a,bob,carol:x:y,alice:b,:z".toList).get? "alice".toList =
      some "b".toList ∧
    (loadCredentials "alice:a,bob,carol:x:y,alice:b,:z".toList).get? "bob".toList = none ∧
    (loadCredentials "alice:a,bob,carol:x:y,alice:b,:z".toList).get? "carol".toList = none ∧
    credentialStep [] "carol:x:y".toList = [] :=
  ⟨(loadCredentials_last_pair "alice:a,bob,carol:x:y,alice:b,:z".toList "alice".toList
      "b".toList).1,
    by decide, by decide, by decide,
    (loadCredentials_last_pair [] [] []).2.2 [] "carol:x:y".toList (by decide)⟩

end Gateway
